import Mathlib

/-!
Verification of the Pipedrive REST extraction configuration
(`pipedrive_pipeline.py`) and of the generic extraction engine it
parameterizes (cursor pagination and incremental watermark tracking).

The configuration dictionary is embedded directly from the Python source.
The extraction engine itself (paginator loop, watermark tracker, merge
writer) is not part of the repository; it is modelled from the
specification's component design, and claims about it are settled against
that model.  Python's `datetime`/`strftime` arithmetic, used by
`DEFAULT_START_DATE`, is modelled by an explicit proleptic Gregorian
calendar implementation.
-/

namespace PipedriveVerif

/-- JSON-like values: the shape of response bodies, records and query
parameter values exchanged with the REST API. -/
inductive Json where
  | null : Json
  | str : String → Json
  | num : Int → Json
  | arr : List Json → Json
  | obj : List (String × Json) → Json

/-- Look up a field of a JSON object; `none` on non-objects. -/
def Json.lookupKey : Json → String → Option Json
  | .obj fs, k => fs.lookup k
  | _, _ => none

/-- Resolve a dotted path (given as a list of keys) into a JSON value. -/
def Json.resolvePath : Json → List String → Option Json
  | j, [] => some j
  | j, k :: ks =>
    match j.lookupKey k with
    | some v => v.resolvePath ks
    | none => none

/-- Lexicographic comparison of character lists by code point, the order
Python uses to compare the timestamp strings that serve as cursor
values. -/
def lexLeb : List Char → List Char → Bool
  | [], _ => true
  | _ :: _, [] => false
  | a :: as, b :: bs => if a = b then lexLeb as bs else decide (a.toNat < b.toNat)

/-- Boolean string comparison (code-point lexicographic). -/
def strLeb (a b : String) : Bool := lexLeb a.data b.data

/-- Larger of two strings under `strLeb`. -/
def strMax (a b : String) : String := if strLeb a b then b else a

/-! ### Calendar model

Models Python's `datetime.now() - timedelta(days=30)` followed by
`strftime("%Y-%m-%d %H:%M:%S")`, at one-second granularity.  Time points
are seconds since 1970-01-01 00:00:00.  The civil (proleptic Gregorian)
calendar is implemented by decomposing the day count era-by-era
(400 years), century-by-century, quadrennium-by-quadrennium. -/

/-- Calendar date and time of day. -/
@[ext] structure DateTime where
  year : Nat
  month : Nat
  day : Nat
  hour : Nat
  minute : Nat
  second : Nat

/-- Year-of-era and day-of-year from a day-of-era index.  The era is
aligned to begin on March 1 of a year divisible by 400, so every leap day
falls at the end of an era-relative year; the era decomposes into four
centuries (the first three of 36524 days, the last of 36525), each
century into quadrennia of 1461 days (the last quadrennium of the first
three centuries has 1460). -/
def yoeDoyOfDoe (doe : Nat) : Nat × Nat :=
  let c := if doe < 36524 then 0 else if doe < 73048 then 1 else if doe < 109572 then 2 else 3
  let doc := doe - 36524 * c
  let q := doc / 1461
  let doq := doc - 1461 * q
  let yiq := min 3 (doq / 365)
  (100 * c + 4 * q + yiq, doq - 365 * yiq)

/-- Month and day-of-month from the day index within a March-aligned year
(0 = March 1, …, 365 = February 29). -/
def mdOfDoy (doy : Nat) : Nat × Nat :=
  let mp := (5 * doy + 2) / 153
  (if mp < 10 then mp + 3 else mp - 9, doy - (153 * mp + 2) / 5 + 1)

/-- Convert a count of days since 1970-01-01 to a Gregorian (year, month,
day) triple. -/
def civilFromDays (z : Nat) : Nat × Nat × Nat :=
  let g := z + 719468
  let yd := yoeDoyOfDoe (g % 146097)
  let md := mdOfDoy yd.2
  (g / 146097 * 400 + yd.1 + (if md.1 ≤ 2 then 1 else 0), md.1, md.2)

/-- Inverse direction: days since 1970-01-01 of a Gregorian date. -/
def daysFromCivil (y m d : Nat) : Nat :=
  let y' := y - (if m ≤ 2 then 1 else 0)
  let yoe := y' % 400
  let mp := if m ≤ 2 then m + 9 else m - 3
  let doy := (153 * mp + 2) / 5 + d - 1
  y' / 400 * 146097 + (365 * yoe + yoe / 4 - yoe / 100 + doy) - 719468

/-- Convert seconds since the epoch to a calendar date-time. -/
def civilFromSeconds (s : Nat) : DateTime :=
  let z := s / 86400
  let r := s % 86400
  let ymd := civilFromDays z
  ⟨ymd.1, ymd.2.1, ymd.2.2, r / 3600, r % 3600 / 60, r % 60⟩

/-- Seconds since the epoch of a calendar date-time (left inverse of
`civilFromSeconds` on the representable range). -/
def secondsFromCivil (dt : DateTime) : Nat :=
  86400 * daysFromCivil dt.year dt.month dt.day + 3600 * dt.hour + 60 * dt.minute + dt.second

/-- Decimal digits of `n`, zero-padded to width `w` (the behaviour of
`strftime`'s zero-padded numeric directives). -/
def padDigits : Nat → Nat → List Char
  | 0, _ => []
  | w + 1, n => padDigits w (n / 10) ++ [Nat.digitChar (n % 10)]

/-- Render a date-time in the `%Y-%m-%d %H:%M:%S` format. -/
def formatDateTime (dt : DateTime) : String :=
  ⟨padDigits 4 dt.year ++ '-' :: (padDigits 2 dt.month ++ '-' :: (padDigits 2 dt.day ++
    ' ' :: (padDigits 2 dt.hour ++ ':' :: (padDigits 2 dt.minute ++ ':' :: padDigits 2 dt.second))))⟩

/-- Default start date for incremental loading: the invocation time minus
30 days, rendered as `%Y-%m-%d %H:%M:%S`.  `now` is the module-import
time in seconds since the epoch. -/
def DEFAULT_START_DATE (now : Nat) : String :=
  formatDateTime (civilFromSeconds (now - 30 * 86400))

/-! ### Configuration data model (embedded from the source) -/

/-- Declarative cursor paginator settings (`client.paginator` and
`resource_defaults.endpoint.paginator` in the source). -/
structure CursorPaginator where
  type : String
  cursor_path : String
  cursor_param : String

/-- Query-string API-key authentication settings (`client.auth`). -/
structure AuthConfig where
  type : String
  name : String
  api_key : String
  location : String

/-- REST client settings (`client`). -/
structure ClientConfig where
  base_url : String
  auth : AuthConfig
  paginator : CursorPaginator

/-- Incremental rule of an endpoint (`endpoint.incremental`). -/
structure IncrementalConfig where
  start_param : Option String
  cursor_path : String
  initial_value : String

/-- Endpoint settings (`endpoint`). -/
structure EndpointConfig where
  path : String
  params : List (String × Json)
  data_selector : String
  incremental : Option IncrementalConfig

/-- One resource entry of the `resources` list. -/
structure ResourceConfig where
  name : String
  endpoint : EndpointConfig

/-- Defaults applied to every resource (`resource_defaults`). -/
structure ResourceDefaults where
  primary_key : String
  write_disposition : String
  endpoint_params : List (String × Json)
  endpoint_paginator : CursorPaginator

/-- The whole argument of `rest_api_source`. -/
structure SourceConfig where
  client : ClientConfig
  resource_defaults : ResourceDefaults
  resources : List ResourceConfig

/-- Paginator dictionary repeated twice in the source. -/
def pipedrivePaginator : CursorPaginator :=
  ⟨"cursor", "additional_data.pagination.next_start", "start"⟩

/-- Resource entry without an incremental rule. -/
def plainResource (nm pth : String) : ResourceConfig :=
  ⟨nm, ⟨pth, [], "data.*", none⟩⟩

/-- Standard resource with timestamp incremental on `update_time`. -/
def updateTimeResource (nm pth : String) (start : String) : ResourceConfig :=
  ⟨nm, ⟨pth, [], "data.*", some ⟨none, "update_time", start⟩⟩⟩

/-- Recents resource with the `since_timestamp` start-parameter override. -/
def recentsResource (nm item : String) (start : String) : ResourceConfig :=
  ⟨nm, ⟨"recents", [("items", Json.str item)], "data.*",
    some ⟨some "since_timestamp", "update_time", start⟩⟩⟩

/-- Configuration built by `pipedrive_source()`, embedded from the source
file.  `now` is the module-import time in seconds since the epoch (it
fixes `DEFAULT_START_DATE`); `api_token` is the secret resolved from
`dlt.secrets["api_token"]`. -/
def pipedrive_source (now : Nat) (api_token : String) : SourceConfig :=
  { client :=
      { base_url := "https://api.pipedrive.com/v1/"
        auth := ⟨"api_key", "api_token", api_token, "query"⟩
        paginator := pipedrivePaginator }
    resource_defaults :=
      { primary_key := "id"
        write_disposition := "merge"
        endpoint_params := [("limit", Json.num 100)]
        endpoint_paginator := pipedrivePaginator }
    resources :=
      [ plainResource "currencies" "currencies"
      , plainResource "activity_types" "activityTypes"
      , plainResource "filters" "filters"
      , plainResource "stages" "stages"
      , plainResource "pipelines" "pipelines"
      , updateTimeResource "deals" "deals" (DEFAULT_START_DATE now)
      , updateTimeResource "organizations" "organizations" (DEFAULT_START_DATE now)
      , updateTimeResource "persons" "persons" (DEFAULT_START_DATE now)
      , updateTimeResource "products" "products" (DEFAULT_START_DATE now)
      , recentsResource "recent_notes" "note" (DEFAULT_START_DATE now)
      , recentsResource "recent_users" "user" (DEFAULT_START_DATE now)
      , recentsResource "recent_activities" "activity" (DEFAULT_START_DATE now)
      , recentsResource "recent_deals" "deal" (DEFAULT_START_DATE now)
      , recentsResource "recent_files" "file" (DEFAULT_START_DATE now)
      , recentsResource "recent_organizations" "organization" (DEFAULT_START_DATE now)
      , recentsResource "recent_persons" "person" (DEFAULT_START_DATE now)
      , recentsResource "recent_products" "product" (DEFAULT_START_DATE now) ] }

/-! ### Extraction-engine model

Modelled from the spec: the generic REST-to-table extraction engine
(cursor paginator §4.1, incremental watermark tracker §4.2, per-endpoint
run state machine, merge writer §6) is supplied by the external framework
and is not part of the repository's source; it is embedded here from the
specification's component design. -/

/-- HTTP request: a path and its query parameters. -/
structure Request where
  path : String
  params : List (String × Json)

/-- Set a query parameter, replacing an existing binding of the same name
or appending a new one. -/
def setParam : List (String × Json) → String → Json → List (String × Json)
  | [], k, v => [(k, v)]
  | p :: ps, k, v => if p.1 = k then (k, v) :: ps else p :: setParam ps k v

/-- Request with one query parameter set. -/
def Request.withParam (r : Request) (k : String) (v : Json) : Request :=
  ⟨r.path, setParam r.params k v⟩

/-- Value of a query parameter of a request. -/
def Request.param (r : Request) (k : String) : Option Json :=
  r.params.lookup k

/-- Split a character list at dots, accumulating the current key in
reverse. -/
def splitChars : List Char → List Char → List String
  | [], acc => [String.mk acc.reverse]
  | c :: cs, acc =>
    if c = '.' then String.mk acc.reverse :: splitChars cs []
    else splitChars cs (c :: acc)

/-- Split a dotted path or selector into its keys. -/
def splitPath (p : String) : List String :=
  splitChars p.data []

/-- Modelled from the spec: the paginator extracts the next-page token via
the configured envelope path; an absent or `null` value signals the final
page. -/
def nextPageToken (pag : CursorPaginator) (body : Json) : Option Json :=
  match body.resolvePath (splitPath pag.cursor_path) with
  | none => none
  | some .null => none
  | some v => some v

/-- Select items from a response body by a selector path; a `*` component
fans out over array elements (so `data.*` yields the elements of the
`data` array). -/
def selectJson : Json → List String → List Json
  | j, [] => [j]
  | j, k :: ks =>
    if k = "*" then
      match j with
      | .arr xs => xs.flatMap (fun x => selectJson x ks)
      | _ => []
    else
      match j.lookupKey k with
      | some v => selectJson v ks
      | none => []

/-- Value found at an incremental rule's cursor field path of a record
(only string values, such as timestamps, are comparable). -/
def recordCursorVal (inc : IncrementalConfig) (r : Json) : Option String :=
  match r.resolvePath (splitPath inc.cursor_path) with
  | some (.str s) => some s
  | _ => none

/-- Modelled from the spec: the tracker defensively drops records whose
cursor value is less than the watermark; records lacking the cursor field
are treated as non-comparable and dropped (policy choice of §9). -/
def keepRecord (inc : Option IncrementalConfig) (wm : String) (r : Json) : Bool :=
  match inc with
  | none => true
  | some rule =>
    match recordCursorVal rule r with
    | some v => strLeb wm v
    | none => false

/-- Records consumed from one successful page: the selected items that
pass the incremental filter. -/
def pageRecords (inc : Option IncrementalConfig) (selector : String) (wm : String)
    (body : Json) : List Json :=
  (selectJson body (splitPath selector)).filter (keepRecord inc wm)

/-- Modelled from the spec: terminal states of the per-endpoint run state
machine (`Completed` commits the new watermark, `Failed` leaves the
previous one untouched; cancellation mid-fetch ends a run as `Failed`). -/
inductive EndpointState where
  | Completed : EndpointState
  | Failed : EndpointState
deriving DecidableEq

/-- Outcome of fetching one page: a response body, a non-retryable HTTP
failure, or cancellation of the in-flight fetch. -/
inductive FetchResult where
  | success (body : Json) : FetchResult
  | httpError (status : Nat) : FetchResult
  | cancelled : FetchResult

/-- Result of the page-fetch loop: terminal state, records consumed, and
the trace of requests issued. -/
structure LoopResult where
  state : EndpointState
  consumed : List Json
  requests : List Request

/-- Modelled from the spec: the cursor paginator loop (§4.1).  It issues
the given request; on a successful response it consumes the page's
records and, when the next-page token is present, continues with that
token attached under the configured cursor parameter; when the token is
absent or null it completes.  A fetch failure, a cancellation, or the
response never arriving ends the run as `Failed`. -/
def runLoop (pag : CursorPaginator) (inc : Option IncrementalConfig) (selector : String)
    (wm : String) : Request → List FetchResult → LoopResult
  | req, [] => ⟨.Failed, [], [req]⟩
  | req, .httpError _ :: _ => ⟨.Failed, [], [req]⟩
  | req, .cancelled :: _ => ⟨.Failed, [], [req]⟩
  | req, .success body :: rest =>
    let recs := pageRecords inc selector wm body
    match nextPageToken pag body with
    | none => ⟨.Completed, recs, [req]⟩
    | some tok =>
      let r := runLoop pag inc selector wm (req.withParam pag.cursor_param tok) rest
      ⟨r.state, recs ++ r.consumed, req :: r.requests⟩

/-- Modelled from the spec: running maximum of the cursor values of the
consumed records, started from the watermark the run began with (§4.2). -/
def newWatermark (inc : IncrementalConfig) (wm : String) (consumed : List Json) : String :=
  consumed.foldl (fun acc r =>
    match recordCursorVal inc r with
    | some v => strMax acc v
    | none => acc) wm

/-- Query-parameter name under which the watermark is sent: the
endpoint-specific override when configured, else the generic default. -/
def startParamName (inc : IncrementalConfig) : String :=
  inc.start_param.getD "since"

/-- Watermark an endpoint's run starts from: the last-saved value, or the
configured initial value if none exists. -/
def startWatermark (res : ResourceConfig) (saved : Option String) : String :=
  match res.endpoint.incremental with
  | some inc => saved.getD inc.initial_value
  | none => ""

/-- Modelled from the spec: the first request of an endpoint's run — the
endpoint path, the default and endpoint query parameters, and for an
incremental endpoint the starting watermark attached under the configured
start parameter. -/
def firstRequest (defaults : ResourceDefaults) (res : ResourceConfig) (wm : String) : Request :=
  match res.endpoint.incremental with
  | none => ⟨res.endpoint.path, defaults.endpoint_params ++ res.endpoint.params⟩
  | some inc =>
    ⟨res.endpoint.path,
      setParam (defaults.endpoint_params ++ res.endpoint.params) (startParamName inc) (Json.str wm)⟩

/-- Overall result of one endpoint's run. -/
structure RunResult where
  state : EndpointState
  consumed : List Json
  watermark : String
  requests : List Request

/-- Modelled from the spec: one endpoint's run.  The starting watermark is
read before the first request; the run then pages through `pages`; only a
run reaching `Completed` persists the new running maximum as watermark,
any failure leaves the previous watermark untouched. -/
def runEndpoint (defaults : ResourceDefaults) (res : ResourceConfig) (saved : Option String)
    (pages : List FetchResult) : RunResult :=
  let wm0 := startWatermark res saved
  let L := runLoop defaults.endpoint_paginator res.endpoint.incremental res.endpoint.data_selector
    wm0 (firstRequest defaults res wm0) pages
  let wm1 :=
    match res.endpoint.incremental, L.state with
    | some inc, .Completed => newWatermark inc wm0 L.consumed
    | _, _ => wm0
  ⟨L.state, L.consumed, wm1, L.requests⟩

/-- Modelled from the spec: one run of the whole source — every endpoint
is extracted independently against its own page environment; endpoint
failures are isolated (§7). -/
def runSource (src : SourceConfig) (saved : String → Option String)
    (env : String → List FetchResult) : List (String × RunResult) :=
  src.resources.map (fun r =>
    (r.name, runEndpoint src.resource_defaults r (saved r.name) (env r.name)))

/-- Modelled from the spec: watermarks persisted over a sequence of runs
of one endpoint, each run starting from the watermark the previous run
left behind. -/
def watermarkSeq (defaults : ResourceDefaults) (res : ResourceConfig) :
    String → List (List FetchResult) → List String
  | _, [] => []
  | wm, pages :: rest =>
    let r := runEndpoint defaults res (some wm) pages
    r.watermark :: watermarkSeq defaults res r.watermark rest

/-- Primary-key value of a record (Pipedrive ids are integers). -/
def recordKey (pk : String) (r : Json) : Option Int :=
  match r.lookupKey pk with
  | some (.num n) => some n
  | _ => none

/-- Modelled from the spec: upsert of one record into a destination table
keyed by the configured primary key (merge write disposition: an incoming
record overwrites the row sharing its key, new keys are inserted).  The
table is the map from primary-key value to row. -/
def upsertRecord (pk : String) (table : Int → Option Json) (r : Json) : Int → Option Json :=
  match recordKey pk r with
  | some k => fun q => if q = k then some r else table q
  | none => table

/-- Modelled from the spec: merge-load a batch of records in order
(last-writer-wins per key within a run). -/
def mergeLoad (pk : String) (table : Int → Option Json) (records : List Json) :
    Int → Option Json :=
  records.foldl (upsertRecord pk) table

/-- Latest record of a batch carrying the given key (the row a merge load
leaves at that key, when some record has it). -/
def lastWithKey (pk : String) (records : List Json) (q : Int) : Option Json :=
  records.foldl (fun acc r => if recordKey pk r = some q then some r else acc) none

/-- Configuration with the credential erased, the observable part of the
configuration for the secrecy claim. -/
def scrubAuth (s : SourceConfig) : SourceConfig :=
  { s with client := { s.client with auth := { s.client.auth with api_key := "" } } }

/-- Resource with its incremental initial value erased. -/
def scrubResourceStart (r : ResourceConfig) : ResourceConfig :=
  { r with endpoint :=
      { r.endpoint with incremental :=
          r.endpoint.incremental.map (fun inc => { inc with initial_value := "" }) } }

/-- Configuration with every incremental initial value erased, the part of
the configuration not depending on the invocation time. -/
def scrubInitialValues (s : SourceConfig) : SourceConfig :=
  { s with resources := s.resources.map scrubResourceStart }

/-! ### Calendar lemmas -/

/-- Arithmetic core of `yoeDoyOfDoe` for one century, stated over named
components. -/
theorem yoeDoySpec (c doc q doq yiq yoe doy : Nat) (hc : c ≤ 3) (hdoc : doc < 36525)
    (hq : q = doc / 1461) (hdoq : doq = doc - 1461 * q) (hyiq : yiq = min 3 (doq / 365))
    (hyoe : yoe = 100 * c + 4 * q + yiq) (hdoy : doy = doq - 365 * yiq) :
    yoe ≤ 399 ∧ doy ≤ 365 ∧ 365 * yoe + yoe / 4 - yoe / 100 + doy = 36524 * c + doc := by
  have h1 : q ≤ 24 := by omega
  have h2 : yiq ≤ 3 := by omega
  have h3 : yoe / 4 = 25 * c + q := by omega
  have h4 : yoe / 100 = c := by omega
  have h5 : 365 * yiq ≤ doq := by omega
  omega

/-- Characterisation of `yoeDoyOfDoe`: the year-of-era and day-of-year are
in range and reconstruct the day-of-era. -/
theorem yoeDoyOfDoe_spec (doe : Nat) (h : doe < 146097) :
    (yoeDoyOfDoe doe).1 ≤ 399 ∧ (yoeDoyOfDoe doe).2 ≤ 365 ∧
    365 * (yoeDoyOfDoe doe).1 + (yoeDoyOfDoe doe).1 / 4 - (yoeDoyOfDoe doe).1 / 100
      + (yoeDoyOfDoe doe).2 = doe := by
  simp only [yoeDoyOfDoe]
  split_ifs with h1 h2 h3
  · have := yoeDoySpec 0 (doe - 36524 * 0) _ _ _ _ _ (by omega) (by omega) rfl rfl rfl rfl rfl
    omega
  · have := yoeDoySpec 1 (doe - 36524 * 1) _ _ _ _ _ (by omega) (by omega) rfl rfl rfl rfl rfl
    omega
  · have := yoeDoySpec 2 (doe - 36524 * 2) _ _ _ _ _ (by omega) (by omega) rfl rfl rfl rfl rfl
    omega
  · have := yoeDoySpec 3 (doe - 36524 * 3) _ _ _ _ _ (by omega) (by omega) rfl rfl rfl rfl rfl
    omega

/-- Characterisation of `mdOfDoy`: month and day are in range and
reconstruct the day-of-year. -/
theorem mdOfDoy_spec (doy : Nat) (h : doy ≤ 365) :
    1 ≤ (mdOfDoy doy).1 ∧ (mdOfDoy doy).1 ≤ 12 ∧ 1 ≤ (mdOfDoy doy).2 ∧ (mdOfDoy doy).2 ≤ 31 ∧
    (153 * (if (mdOfDoy doy).1 ≤ 2 then (mdOfDoy doy).1 + 9 else (mdOfDoy doy).1 - 3) + 2) / 5
      + (mdOfDoy doy).2 - 1 = doy := by
  simp only [mdOfDoy]
  split_ifs <;> omega

/-- Field bounds of `civilFromDays` on the four-digit-year range. -/
theorem civilFromDays_bounds (z : Nat) (hz : z < 2932897) :
    1600 ≤ (civilFromDays z).1 ∧ (civilFromDays z).1 ≤ 9999 ∧
    1 ≤ (civilFromDays z).2.1 ∧ (civilFromDays z).2.1 ≤ 12 ∧
    1 ≤ (civilFromDays z).2.2 ∧ (civilFromDays z).2.2 ≤ 31 := by
  simp only [civilFromDays]
  have h1 := yoeDoyOfDoe_spec ((z + 719468) % 146097) (Nat.mod_lt _ (by omega))
  have h2 := mdOfDoy_spec (yoeDoyOfDoe ((z + 719468) % 146097)).2 h1.2.1
  have hdiv : (z + 719468) / 146097 ≤ 24 := by omega
  have hdiv2 : 4 ≤ (z + 719468) / 146097 := by omega
  constructor
  · split_ifs <;> omega
  refine ⟨?_, by omega, by omega, by omega, by omega⟩
  by_cases hadj : (mdOfDoy (yoeDoyOfDoe ((z + 719468) % 146097)).2).1 ≤ 2
  · simp only [if_pos hadj]
    rcases Nat.lt_or_ge ((z + 719468) / 146097) 24 with h24 | h24
    · omega
    · have hmod : (z + 719468) % 146097 = (z + 719468) - 146097 * 24 := by omega
      have hdoy : 306 ≤ (yoeDoyOfDoe ((z + 719468) % 146097)).2 := by
        rcases h2 with ⟨hm1, hm2, hd1, hd2, hrt⟩
        by_contra hlt
        push_neg at hlt
        revert hrt hm1 hm2 hd1 hd2 hadj
        simp only [mdOfDoy]
        split_ifs <;> omega
      rcases h1 with ⟨hy1, hy2, hy3⟩
      by_contra hgt
      push_neg at hgt
      have hyoe : (yoeDoyOfDoe ((z + 719468) % 146097)).1 = 399 := by omega
      rw [hyoe] at hy3
      omega
  · simp only [if_neg hadj]
    omega

/-- Assembly step of the day-level round trip over named components. -/
theorem daysFromCivil_assemble (era yoe doy m d doe : Nat) (hyoe : yoe ≤ 399)
    (hrec : 365 * yoe + yoe / 4 - yoe / 100 + doy = doe) (hm2 : m ≤ 12)
    (hrt : (153 * (if m ≤ 2 then m + 9 else m - 3) + 2) / 5 + d - 1 = doy) (hd1 : 1 ≤ d) :
    daysFromCivil (era * 400 + yoe + (if m ≤ 2 then 1 else 0)) m d
      = era * 146097 + doe - 719468 := by
  simp only [daysFromCivil]
  have hadj : era * 400 + yoe + (if m ≤ 2 then 1 else 0) - (if m ≤ 2 then 1 else 0)
      = era * 400 + yoe := by split_ifs <;> omega
  rw [hadj]
  have hdiv : (era * 400 + yoe) / 400 = era := by omega
  have hmod : (era * 400 + yoe) % 400 = yoe := by omega
  rw [hdiv, hmod]
  omega

/-- Day-level round trip: `daysFromCivil` inverts `civilFromDays` below
year 10000. -/
theorem daysFromCivil_civilFromDays (z : Nat) (hz : z < 2932897) :
    daysFromCivil (civilFromDays z).1 (civilFromDays z).2.1 (civilFromDays z).2.2 = z := by
  have hglt : (z + 719468) % 146097 < 146097 := Nat.mod_lt _ (by omega)
  obtain ⟨hy1, hy2, hy3⟩ := yoeDoyOfDoe_spec _ hglt
  obtain ⟨hm1, hm2, hd1, hd2, hrt⟩ := mdOfDoy_spec _ hy2
  have e1 : (civilFromDays z).1 = (z + 719468) / 146097 * 400
      + (yoeDoyOfDoe ((z + 719468) % 146097)).1
      + (if (mdOfDoy (yoeDoyOfDoe ((z + 719468) % 146097)).2).1 ≤ 2 then 1 else 0) := rfl
  have e2 : (civilFromDays z).2.1 = (mdOfDoy (yoeDoyOfDoe ((z + 719468) % 146097)).2).1 := rfl
  have e3 : (civilFromDays z).2.2 = (mdOfDoy (yoeDoyOfDoe ((z + 719468) % 146097)).2).2 := rfl
  rw [e1, e2, e3]
  rw [daysFromCivil_assemble _ _ _ _ _ _ hy1 hy3 hm2 hrt hd1]
  omega

/-- Second-level round trip: `secondsFromCivil` inverts `civilFromSeconds`
below the year-10000 bound. -/
theorem secondsFromCivil_civilFromSeconds (s : Nat) (hs : s < 253402300800) :
    secondsFromCivil (civilFromSeconds s) = s := by
  have hz : s / 86400 < 2932897 := by omega
  show 86400 * daysFromCivil (civilFromDays (s / 86400)).1 (civilFromDays (s / 86400)).2.1
      (civilFromDays (s / 86400)).2.2
    + 3600 * (s % 86400 / 3600) + 60 * (s % 86400 % 3600 / 60) + s % 86400 % 60 = s
  rw [daysFromCivil_civilFromDays _ hz]
  omega

/-- Field bounds of `civilFromSeconds` needed for fixed-width
formatting. -/
theorem civilFromSeconds_bounds (s : Nat) (hs : s < 253402300800) :
    (civilFromSeconds s).year < 10000 ∧ (civilFromSeconds s).month < 100 ∧
    (civilFromSeconds s).day < 100 ∧ (civilFromSeconds s).hour < 100 ∧
    (civilFromSeconds s).minute < 100 ∧ (civilFromSeconds s).second < 100 := by
  have hz : s / 86400 < 2932897 := by omega
  have hb := civilFromDays_bounds (s / 86400) hz
  have e1 : (civilFromSeconds s).year = (civilFromDays (s / 86400)).1 := rfl
  have e2 : (civilFromSeconds s).month = (civilFromDays (s / 86400)).2.1 := rfl
  have e3 : (civilFromSeconds s).day = (civilFromDays (s / 86400)).2.2 := rfl
  have e4 : (civilFromSeconds s).hour = s % 86400 / 3600 := rfl
  have e5 : (civilFromSeconds s).minute = s % 86400 % 3600 / 60 := rfl
  have e6 : (civilFromSeconds s).second = s % 86400 % 60 := rfl
  rw [e1, e2, e3, e4, e5, e6]
  omega

/-! ### Formatting lemmas -/

/-- Zero-padded digit lists have the requested width. -/
theorem padDigits_length (w n : Nat) : (padDigits w n).length = w := by
  induction w generalizing n with
  | zero => rfl
  | succ w ih => simp [padDigits, ih]

/-- Digit characters of distinct decimal digits are distinct. -/
theorem digitChar_injOn (a b : Nat) (ha : a < 10) (hb : b < 10)
    (h : Nat.digitChar a = Nat.digitChar b) : a = b := by
  interval_cases a <;> interval_cases b <;> revert h <;> decide

/-- Zero-padded rendering is injective below the width's capacity. -/
theorem padDigits_inj (w a b : Nat) (ha : a < 10 ^ w) (hb : b < 10 ^ w)
    (h : padDigits w a = padDigits w b) : a = b := by
  induction w generalizing a b with
  | zero =>
    simp only [pow_zero] at ha hb
    omega
  | succ w ih =>
    simp only [padDigits] at h
    obtain ⟨h1, h2⟩ := List.append_inj h (by rw [padDigits_length, padDigits_length])
    injection h2 with hdc _
    have hmod : a % 10 = b % 10 :=
      digitChar_injOn _ _ (Nat.mod_lt _ (by omega)) (Nat.mod_lt _ (by omega)) hdc
    have hpow : (10 : Nat) ^ (w + 1) = 10 ^ w * 10 := pow_succ 10 w
    have hdiv : a / 10 = b / 10 :=
      ih _ _ ((Nat.div_lt_iff_lt_mul (by omega)).2 (by omega))
        ((Nat.div_lt_iff_lt_mul (by omega)).2 (by omega)) h1
    omega

/-- The `%Y-%m-%d %H:%M:%S` rendering is injective on in-range field
values. -/
theorem formatDateTime_inj (a b : DateTime)
    (ha : a.year < 10000 ∧ a.month < 100 ∧ a.day < 100 ∧ a.hour < 100 ∧
      a.minute < 100 ∧ a.second < 100)
    (hb : b.year < 10000 ∧ b.month < 100 ∧ b.day < 100 ∧ b.hour < 100 ∧
      b.minute < 100 ∧ b.second < 100)
    (h : formatDateTime a = formatDateTime b) : a = b := by
  have hd := congrArg String.data h
  simp only [formatDateTime] at hd
  have hlen2 : ∀ n m : Nat, (padDigits 2 n).length = (padDigits 2 m).length := by
    intro n m
    rw [padDigits_length, padDigits_length]
  obtain ⟨hy, hd⟩ := List.append_inj hd (by rw [padDigits_length, padDigits_length])
  injection hd with _ hd
  obtain ⟨hmo, hd⟩ := List.append_inj hd (hlen2 _ _)
  injection hd with _ hd
  obtain ⟨hday, hd⟩ := List.append_inj hd (hlen2 _ _)
  injection hd with _ hd
  obtain ⟨hh, hd⟩ := List.append_inj hd (hlen2 _ _)
  injection hd with _ hd
  obtain ⟨hmi, hs⟩ := List.append_inj hd (hlen2 _ _)
  injection hs with _ hs
  have p4 : (10 : Nat) ^ 4 = 10000 := by norm_num
  have p2 : (10 : Nat) ^ 2 = 100 := by norm_num
  ext
  · exact padDigits_inj 4 _ _ (by omega) (by omega) hy
  · exact padDigits_inj 2 _ _ (by omega) (by omega) hmo
  · exact padDigits_inj 2 _ _ (by omega) (by omega) hday
  · exact padDigits_inj 2 _ _ (by omega) (by omega) hh
  · exact padDigits_inj 2 _ _ (by omega) (by omega) hmi
  · exact padDigits_inj 2 _ _ (by omega) (by omega) hs

/-- On the representable range, distinct invocation times yield distinct
default start dates. -/
theorem DEFAULT_START_DATE_injOn (t1 t2 : Nat)
    (h1 : 2592000 ≤ t1) (h2 : t1 < 253404892800)
    (h3 : 2592000 ≤ t2) (h4 : t2 < 253404892800)
    (hne : t1 ≠ t2) : DEFAULT_START_DATE t1 ≠ DEFAULT_START_DATE t2 := by
  intro h
  unfold DEFAULT_START_DATE at h
  have hb1 := civilFromSeconds_bounds (t1 - 30 * 86400) (by omega)
  have hb2 := civilFromSeconds_bounds (t2 - 30 * 86400) (by omega)
  have hdt := formatDateTime_inj _ _ hb1 hb2 h
  have hsec := congrArg secondsFromCivil hdt
  rw [secondsFromCivil_civilFromSeconds _ (by omega),
    secondsFromCivil_civilFromSeconds _ (by omega)] at hsec
  omega

/-! ### String-order lemmas -/

/-- Characters with equal code points are equal. -/
theorem char_eq_of_toNat_eq (a b : Char) (h : a.toNat = b.toNat) : a = b := by
  apply Char.eq_of_val_eq
  apply UInt32.eq_of_toBitVec_eq
  apply BitVec.eq_of_toNat_eq
  exact h

/-- Reflexivity of the lexicographic comparison. -/
theorem lexLeb_refl (l : List Char) : lexLeb l l = true := by
  induction l with
  | nil => rfl
  | cons a as ih => simp [lexLeb, ih]

/-- Totality of the lexicographic comparison. -/
theorem lexLeb_total (a : List Char) : ∀ b, lexLeb a b = true ∨ lexLeb b a = true := by
  induction a with
  | nil => intro b; left; rfl
  | cons x xs ih =>
    intro b
    cases b with
    | nil => right; rfl
    | cons y ys =>
      by_cases hxy : x = y
      · subst hxy
        simp only [lexLeb, if_pos rfl]
        exact ih ys
      · have hne : y ≠ x := fun h => hxy h.symm
        have htn : x.toNat ≠ y.toNat := fun h => hxy (char_eq_of_toNat_eq _ _ h)
        simp only [lexLeb, if_neg hxy, if_neg hne, decide_eq_true_eq]
        omega

/-- Transitivity of the lexicographic comparison. -/
theorem lexLeb_trans (a : List Char) :
    ∀ b c, lexLeb a b = true → lexLeb b c = true → lexLeb a c = true := by
  induction a with
  | nil => intro b c _ _; rfl
  | cons x xs ih =>
    intro b c h1 h2
    cases b with
    | nil => simp [lexLeb] at h1
    | cons y ys =>
      cases c with
      | nil => simp [lexLeb] at h2
      | cons z zs =>
        simp only [lexLeb] at h1 h2 ⊢
        by_cases hxy : x = y
        · subst hxy
          rw [if_pos rfl] at h1
          by_cases hyz : x = z
          · subst hyz
            rw [if_pos rfl] at h2 ⊢
            exact ih ys zs h1 h2
          · rw [if_neg hyz] at h2 ⊢
            exact h2
        · rw [if_neg hxy] at h1
          by_cases hyz : y = z
          · subst hyz
            rw [if_neg hxy]
            exact h1
          · rw [if_neg hyz] at h2
            have htxy : x.toNat < y.toNat := by simpa using h1
            have htyz : y.toNat < z.toNat := by simpa using h2
            have hxz : x ≠ z := by
              intro h
              subst h
              omega
            rw [if_neg hxz]
            simp only [decide_eq_true_eq]
            omega

/-- Antisymmetry of the lexicographic comparison. -/
theorem lexLeb_antisymm (a : List Char) :
    ∀ b, lexLeb a b = true → lexLeb b a = true → a = b := by
  induction a with
  | nil =>
    intro b _ h2
    cases b with
    | nil => rfl
    | cons y ys => simp [lexLeb] at h2
  | cons x xs ih =>
    intro b h1 h2
    cases b with
    | nil => simp [lexLeb] at h1
    | cons y ys =>
      simp only [lexLeb] at h1 h2
      by_cases hxy : x = y
      · subst hxy
        rw [if_pos rfl] at h1 h2
        rw [ih ys h1 h2]
      · have hne : y ≠ x := fun h => hxy h.symm
        rw [if_neg hxy] at h1
        rw [if_neg hne] at h2
        simp only [decide_eq_true_eq] at h1 h2
        omega

/-- Reflexivity of the string comparison. -/
theorem strLeb_refl (s : String) : strLeb s s = true :=
  lexLeb_refl s.data

/-- Totality of the string comparison. -/
theorem strLeb_total (a b : String) : strLeb a b = true ∨ strLeb b a = true :=
  lexLeb_total a.data b.data

/-- Transitivity of the string comparison. -/
theorem strLeb_trans (a b c : String) (h1 : strLeb a b = true) (h2 : strLeb b c = true) :
    strLeb a c = true :=
  lexLeb_trans a.data b.data c.data h1 h2

/-- Antisymmetry of the string comparison. -/
theorem strLeb_antisymm (a b : String) (h1 : strLeb a b = true) (h2 : strLeb b a = true) :
    a = b := by
  cases a with
  | mk la =>
    cases b with
    | mk lb => exact congrArg String.mk (lexLeb_antisymm la lb h1 h2)

/-- The maximum dominates its left argument. -/
theorem strLeb_strMax_left (a b : String) : strLeb a (strMax a b) = true := by
  unfold strMax
  split_ifs with h
  · exact h
  · exact strLeb_refl a

/-- The maximum dominates its right argument. -/
theorem strLeb_strMax_right (a b : String) : strLeb b (strMax a b) = true := by
  unfold strMax
  split_ifs with h
  · exact strLeb_refl b
  · rcases strLeb_total a b with h1 | h1
    · exact absurd h1 (by simp [h])
    · exact h1

/-- The maximum is one of its arguments. -/
theorem strMax_cases (a b : String) : strMax a b = a ∨ strMax a b = b := by
  unfold strMax
  split_ifs
  · right; rfl
  · left; rfl

/-! ### Running-maximum lemmas -/

/-- The fold of `strMax` dominates its starting point. -/
theorem foldl_strMax_start (l : List String) : ∀ a, strLeb a (l.foldl strMax a) = true := by
  induction l with
  | nil => intro a; exact strLeb_refl a
  | cons x xs ih =>
    intro a
    exact strLeb_trans _ _ _ (strLeb_strMax_left a x) (ih (strMax a x))

/-- The fold of `strMax` dominates every list element. -/
theorem foldl_strMax_ub (l : List String) :
    ∀ a x, x ∈ l → strLeb x (l.foldl strMax a) = true := by
  induction l with
  | nil => intro a x hx; cases hx
  | cons y ys ih =>
    intro a x hx
    rcases List.mem_cons.mp hx with rfl | hx
    · exact strLeb_trans _ _ _ (strLeb_strMax_right a x) (foldl_strMax_start ys (strMax a x))
    · exact ih (strMax a y) x hx

/-- The fold of `strMax` is its starting point or a list element. -/
theorem foldl_strMax_mem (l : List String) :
    ∀ a, l.foldl strMax a = a ∨ l.foldl strMax a ∈ l := by
  induction l with
  | nil => intro a; left; rfl
  | cons x xs ih =>
    intro a
    rcases ih (strMax a x) with h | h
    · rcases strMax_cases a x with h1 | h1
      · left
        rw [List.foldl_cons, h, h1]
      · right
        rw [List.foldl_cons, h, h1]
        exact List.mem_cons_self x xs
    · right
      exact List.mem_cons_of_mem x h

/-! ### Request-parameter lemmas -/

/-- Looking up the parameter just set yields its value. -/
theorem setParam_lookup_same (ps : List (String × Json)) (k : String) (v : Json) :
    (setParam ps k v).lookup k = some v := by
  induction ps with
  | nil => simp [setParam, List.lookup]
  | cons p ps ih =>
    obtain ⟨k', v'⟩ := p
    by_cases h : k' = k
    · simp [setParam, h, List.lookup]
    · have hb : (k == k') = false := by
        simp only [beq_eq_false_iff_ne, ne_eq]
        exact fun hk => h hk.symm
      simp [setParam, h, List.lookup, hb, ih]

/-- Setting one parameter leaves every other parameter unchanged. -/
theorem setParam_lookup_ne (ps : List (String × Json)) (k k' : String) (v : Json)
    (h : k' ≠ k) : (setParam ps k v).lookup k' = ps.lookup k' := by
  induction ps with
  | nil =>
    have hb : (k' == k) = false := by simpa using h
    simp [setParam, List.lookup, hb]
  | cons p ps ih =>
    obtain ⟨k1, v1⟩ := p
    by_cases h1 : k1 = k
    · subst h1
      have hb : (k' == k1) = false := by simpa using h
      simp [setParam, List.lookup, hb]
    · simp [setParam, h1, List.lookup, ih]

/-- `withParam` sets the requested parameter. -/
theorem withParam_param_same (r : Request) (k : String) (v : Json) :
    (r.withParam k v).param k = some v :=
  setParam_lookup_same r.params k v

/-- `withParam` leaves other parameters unchanged. -/
theorem withParam_param_ne (r : Request) (k k' : String) (v : Json) (h : k' ≠ k) :
    (r.withParam k v).param k' = r.param k' :=
  setParam_lookup_ne r.params k k' v h

/-! ### Paginator-loop lemmas -/

/-- The first request of the loop's trace is the request it was started
with. -/
theorem runLoop_requests_head (pag : CursorPaginator) (inc : Option IncrementalConfig)
    (sel wm : String) (pages : List FetchResult) (req : Request) :
    (runLoop pag inc sel wm req pages).requests[0]? = some req := by
  cases pages with
  | nil => rfl
  | cons p rest =>
    cases p with
    | success body =>
      simp only [runLoop]
      split <;> simp
    | httpError s => rfl
    | cancelled => rfl

/-- Invariant preservation along the request trace: any property of
requests preserved by attaching the cursor parameter holds of every
request the loop issues. -/
theorem runLoop_requests_pred (pag : CursorPaginator) (inc : Option IncrementalConfig)
    (sel wm : String) (P : Request → Prop)
    (hstep : ∀ r t, P r → P (r.withParam pag.cursor_param t)) :
    ∀ pages req, P req → ∀ (i : Nat) (ri : Request),
      (runLoop pag inc sel wm req pages).requests[i]? = some ri → P ri := by
  intro pages
  induction pages with
  | nil =>
    intro req hP i ri h
    cases i with
    | zero =>
      simp only [runLoop, List.getElem?_cons_zero] at h
      cases h
      exact hP
    | succ n => simp [runLoop] at h
  | cons p rest ih =>
    intro req hP i ri h
    cases p with
    | httpError s =>
      cases i with
      | zero =>
        simp only [runLoop, List.getElem?_cons_zero] at h
        cases h
        exact hP
      | succ n => simp [runLoop] at h
    | cancelled =>
      cases i with
      | zero =>
        simp only [runLoop, List.getElem?_cons_zero] at h
        cases h
        exact hP
      | succ n => simp [runLoop] at h
    | success body =>
      simp only [runLoop] at h
      split at h
      · cases i with
        | zero =>
          simp only [List.getElem?_cons_zero] at h
          cases h
          exact hP
        | succ n => simp at h
      · cases i with
        | zero =>
          simp only [List.getElem?_cons_zero] at h
          cases h
          exact hP
        | succ n =>
          simp only [List.getElem?_cons_succ] at h
          exact ih _ (hstep _ _ hP) n ri h

/-- Every record the loop consumes passed the incremental filter. -/
theorem runLoop_consumed_keep (pag : CursorPaginator) (inc : Option IncrementalConfig)
    (sel wm : String) :
    ∀ pages req r, r ∈ (runLoop pag inc sel wm req pages).consumed →
      keepRecord inc wm r = true := by
  intro pages
  induction pages with
  | nil => intro req r h; simp [runLoop] at h
  | cons p rest ih =>
    intro req r h
    cases p with
    | httpError s => simp [runLoop] at h
    | cancelled => simp [runLoop] at h
    | success body =>
      simp only [runLoop] at h
      split at h
      · exact (List.mem_filter.mp (by simpa [pageRecords] using h)).2
      · dsimp only at h
        rcases List.mem_append.mp h with h1 | h1
        · exact (List.mem_filter.mp (by simpa [pageRecords] using h1)).2
        · exact ih _ r h1

/-- The running maximum equals a fold of `strMax` over the cursor values
of the consumed records. -/
theorem newWatermark_eq_foldl (inc : IncrementalConfig) :
    ∀ (consumed : List Json) (wm : String),
      newWatermark inc wm consumed
        = (consumed.filterMap (recordCursorVal inc)).foldl strMax wm := by
  intro consumed
  induction consumed with
  | nil => intro wm; rfl
  | cons r rs ih =>
    intro wm
    cases h : recordCursorVal inc r with
    | none =>
      have e1 : newWatermark inc wm (r :: rs) = newWatermark inc wm rs := by
        simp only [newWatermark, List.foldl_cons, h]
      rw [e1, List.filterMap_cons_none h, ih]
    | some v =>
      have e1 : newWatermark inc wm (r :: rs) = newWatermark inc (strMax wm v) rs := by
        simp only [newWatermark, List.foldl_cons, h]
      rw [e1, List.filterMap_cons_some h, List.foldl_cons, ih]

/-- Request trace of a run whose first page carries no next-page token. -/
theorem runLoop_requests_success_none (pag : CursorPaginator) (inc : Option IncrementalConfig)
    (sel wm : String) (req : Request) (body : Json) (rest : List FetchResult)
    (h : nextPageToken pag body = none) :
    (runLoop pag inc sel wm req (.success body :: rest)).requests = [req] := by
  simp [runLoop, h]

/-- Request trace of a run whose first page carries a next-page token. -/
theorem runLoop_requests_success_some (pag : CursorPaginator) (inc : Option IncrementalConfig)
    (sel wm : String) (req : Request) (body : Json) (rest : List FetchResult) (tok : Json)
    (h : nextPageToken pag body = some tok) :
    (runLoop pag inc sel wm req (.success body :: rest)).requests
      = req :: (runLoop pag inc sel wm (req.withParam pag.cursor_param tok) rest).requests := by
  simp [runLoop, h]

/-- Step behaviour of the paginator loop: at every page whose request was
issued, an absent token makes the trace end there, and a present token
makes the next request carry it under the cursor parameter. -/
theorem runLoop_pagination (pag : CursorPaginator) (inc : Option IncrementalConfig)
    (sel wm : String) :
    ∀ (pages : List FetchResult) (req : Request) (i : Nat) (ri : Request) (body : Json),
      (runLoop pag inc sel wm req pages).requests[i]? = some ri →
      pages[i]? = some (.success body) →
      (nextPageToken pag body = none →
        (runLoop pag inc sel wm req pages).requests.length = i + 1) ∧
      (∀ tok, nextPageToken pag body = some tok →
        (runLoop pag inc sel wm req pages).requests[i + 1]?
          = some (ri.withParam pag.cursor_param tok)) := by
  intro pages
  induction pages with
  | nil => intro req i ri body hr hp; simp at hp
  | cons p rest ih =>
    intro req i ri body hr hp
    cases p with
    | httpError s =>
      cases i with
      | zero => simp at hp
      | succ n =>
        simp only [runLoop] at hr
        simp at hr
    | cancelled =>
      cases i with
      | zero => simp at hp
      | succ n =>
        simp only [runLoop] at hr
        simp at hr
    | success body' =>
      cases i with
      | zero =>
        have hb : body' = body := by simpa using hp
        subst hb
        have hri : ri = req := by
          have hh := runLoop_requests_head pag inc sel wm (FetchResult.success body' :: rest) req
          rw [hr] at hh
          exact Option.some.inj hh
        subst hri
        constructor
        · intro htok
          rw [runLoop_requests_success_none pag inc sel wm ri body' rest htok]
          rfl
        · intro tok htok
          rw [runLoop_requests_success_some pag inc sel wm ri body' rest tok htok]
          simp only [List.getElem?_cons_succ]
          exact runLoop_requests_head pag inc sel wm rest (ri.withParam pag.cursor_param tok)
      | succ n =>
        have hp' : rest[n]? = some (.success body) := by simpa using hp
        cases htok' : nextPageToken pag body' with
        | none =>
          rw [runLoop_requests_success_none pag inc sel wm req body' rest htok'] at hr
          simp at hr
        | some tok' =>
          rw [runLoop_requests_success_some pag inc sel wm req body' rest tok' htok'] at hr ⊢
          simp only [List.getElem?_cons_succ] at hr ⊢
          have hrec := ih (req.withParam pag.cursor_param tok') n ri body hr hp'
          constructor
          · intro htok
            simp only [List.length_cons, hrec.1 htok]
          · intro tok htok
            exact hrec.2 tok htok

/-- C1: for every endpoint and every sequence of response pages, the
cursor paginator stops fetching exactly when the next-page-token path
`additional_data.pagination.next_start` resolves to absent or null in the
response envelope — issuing no request for any later page — and while the
token is present, the next request carries it under the configured cursor
parameter `start`. -/
theorem c1_cursor_pagination_stops_exactly (now : Nat) (key : String) (res : ResourceConfig)
    (saved : Option String) (pages : List FetchResult) (i : Nat) (ri : Request) (body : Json)
    (hreq : (runEndpoint (pipedrive_source now key).resource_defaults res saved
        pages).requests[i]? = some ri)
    (hpage : pages[i]? = some (.success body)) :
    ((body.resolvePath (splitPath "additional_data.pagination.next_start") = none ∨
      body.resolvePath (splitPath "additional_data.pagination.next_start") = some Json.null) →
      (runEndpoint (pipedrive_source now key).resource_defaults res saved
          pages).requests.length = i + 1 ∧
      ∀ j : Nat, i + 1 ≤ j →
        (runEndpoint (pipedrive_source now key).resource_defaults res saved
          pages).requests[j]? = none) ∧
    (∀ tok, body.resolvePath (splitPath "additional_data.pagination.next_start") = some tok →
      tok ≠ Json.null →
      (runEndpoint (pipedrive_source now key).resource_defaults res saved
          pages).requests[i + 1]? = some (ri.withParam "start" tok) ∧
      (ri.withParam "start" tok).param "start" = some tok) := by
  have e : (runEndpoint (pipedrive_source now key).resource_defaults res saved pages).requests
      = (runLoop pipedrivePaginator res.endpoint.incremental res.endpoint.data_selector
          (startWatermark res saved)
          (firstRequest (pipedrive_source now key).resource_defaults res
            (startWatermark res saved)) pages).requests := rfl
  rw [e] at hreq ⊢
  constructor
  · intro habs
    have htok : nextPageToken pipedrivePaginator body = none := by
      rcases habs with h | h <;> simp [nextPageToken, pipedrivePaginator, h]
    have hlen := (runLoop_pagination pipedrivePaginator res.endpoint.incremental
      res.endpoint.data_selector (startWatermark res saved) pages _ i ri body hreq hpage).1 htok
    refine ⟨hlen, ?_⟩
    intro j hj
    apply List.getElem?_eq_none
    omega
  · intro tok hres hnn
    have htok : nextPageToken pipedrivePaginator body = some tok := by
      cases tok with
      | null => exact absurd rfl hnn
      | str s => simp [nextPageToken, pipedrivePaginator, hres]
      | num n => simp [nextPageToken, pipedrivePaginator, hres]
      | arr xs => simp [nextPageToken, pipedrivePaginator, hres]
      | obj fs => simp [nextPageToken, pipedrivePaginator, hres]
    have hnext := (runLoop_pagination pipedrivePaginator res.endpoint.incremental
      res.endpoint.data_selector (startWatermark res saved) pages _ i ri body hreq hpage).2
      tok htok
    exact ⟨hnext, withParam_param_same ri "start" tok⟩

/-! ### Endpoint-run lemmas -/

/-- State of an endpoint run is the state of its page loop. -/
theorem runEndpoint_state_eq (defaults : ResourceDefaults) (res : ResourceConfig)
    (saved : Option String) (pages : List FetchResult) :
    (runEndpoint defaults res saved pages).state
      = (runLoop defaults.endpoint_paginator res.endpoint.incremental res.endpoint.data_selector
          (startWatermark res saved) (firstRequest defaults res (startWatermark res saved))
          pages).state := rfl

/-- Consumed records of an endpoint run are those of its page loop. -/
theorem runEndpoint_consumed_eq (defaults : ResourceDefaults) (res : ResourceConfig)
    (saved : Option String) (pages : List FetchResult) :
    (runEndpoint defaults res saved pages).consumed
      = (runLoop defaults.endpoint_paginator res.endpoint.incremental res.endpoint.data_selector
          (startWatermark res saved) (firstRequest defaults res (startWatermark res saved))
          pages).consumed := rfl

/-- A run that did not complete persists the watermark it started with. -/
theorem runEndpoint_failed_watermark (defaults : ResourceDefaults) (res : ResourceConfig)
    (saved : Option String) (pages : List FetchResult)
    (h : (runEndpoint defaults res saved pages).state = .Failed) :
    (runEndpoint defaults res saved pages).watermark = startWatermark res saved := by
  have hst : (runLoop defaults.endpoint_paginator res.endpoint.incremental
      res.endpoint.data_selector (startWatermark res saved)
      (firstRequest defaults res (startWatermark res saved)) pages).state = .Failed := h
  simp only [runEndpoint]
  rw [hst]
  rcases res.endpoint.incremental with _ | inc <;> rfl

/-- A completed run of an incremental endpoint persists the running
maximum over its consumed records. -/
theorem runEndpoint_completed_watermark (defaults : ResourceDefaults) (res : ResourceConfig)
    (saved : Option String) (pages : List FetchResult) (inc : IncrementalConfig)
    (hinc : res.endpoint.incremental = some inc)
    (h : (runEndpoint defaults res saved pages).state = .Completed) :
    (runEndpoint defaults res saved pages).watermark
      = newWatermark inc (startWatermark res saved)
          (runEndpoint defaults res saved pages).consumed := by
  have hst : (runLoop defaults.endpoint_paginator res.endpoint.incremental
      res.endpoint.data_selector (startWatermark res saved)
      (firstRequest defaults res (startWatermark res saved)) pages).state = .Completed := h
  rw [runEndpoint_consumed_eq]
  simp only [runEndpoint]
  rw [hst, hinc]

/-- The persisted watermark of any run dominates the starting one. -/
theorem startWatermark_le_run (defaults : ResourceDefaults) (res : ResourceConfig)
    (saved : Option String) (pages : List FetchResult) (inc : IncrementalConfig)
    (hinc : res.endpoint.incremental = some inc) :
    strLeb (startWatermark res saved) (runEndpoint defaults res saved pages).watermark
      = true := by
  cases hst : (runEndpoint defaults res saved pages).state with
  | Failed =>
    rw [runEndpoint_failed_watermark defaults res saved pages hst]
    exact strLeb_refl _
  | Completed =>
    rw [runEndpoint_completed_watermark defaults res saved pages inc hinc hst]
    rw [newWatermark_eq_foldl]
    exact foldl_strMax_start _ _

/-- C4: a run that ends in the `Failed` state — which is how a failed
fetch or a cancellation mid-fetch ends — leaves the persisted watermark
exactly equal to its value before the run began, and only a run reaching
`Completed` can commit a different watermark; a run whose first fetch is
cancelled indeed ends `Failed`. -/
theorem c4_failed_run_keeps_watermark (now : Nat) (key : String) (res : ResourceConfig)
    (saved : Option String) (pages : List FetchResult)
    (hres : res ∈ (pipedrive_source now key).resources) :
    ((runEndpoint (pipedrive_source now key).resource_defaults res saved pages).state = .Failed →
      (runEndpoint (pipedrive_source now key).resource_defaults res saved pages).watermark
        = startWatermark res saved) ∧
    ((runEndpoint (pipedrive_source now key).resource_defaults res saved pages).watermark
        ≠ startWatermark res saved →
      (runEndpoint (pipedrive_source now key).resource_defaults res saved pages).state
        = .Completed) ∧
    (runEndpoint (pipedrive_source now key).resource_defaults res saved
      (FetchResult.cancelled :: pages)).state = .Failed := by
  refine ⟨runEndpoint_failed_watermark _ res saved pages, ?_, ?_⟩
  · intro hne
    cases hst : (runEndpoint (pipedrive_source now key).resource_defaults res saved
        pages).state with
    | Completed => rfl
    | Failed =>
      exact absurd (runEndpoint_failed_watermark _ res saved pages hst) hne
  · rw [runEndpoint_state_eq]
    rfl

/-- The first persisted watermark of a run sequence dominates the
watermark the sequence started from. -/
theorem watermarkSeq_head_ge (defaults : ResourceDefaults) (res : ResourceConfig)
    (inc : IncrementalConfig) (hinc : res.endpoint.incremental = some inc) :
    ∀ (runs : List (List FetchResult)) (wm0 w : String),
      (watermarkSeq defaults res wm0 runs)[0]? = some w → strLeb wm0 w = true := by
  intro runs wm0 w h
  cases runs with
  | nil => simp [watermarkSeq] at h
  | cons pages rest =>
    simp only [watermarkSeq, List.getElem?_cons_zero] at h
    have hw := Option.some.inj h
    have hstart : startWatermark res (some wm0) = wm0 := by
      simp [startWatermark, hinc]
    have := startWatermark_le_run defaults res (some wm0) pages inc hinc
    rw [hstart] at this
    rw [← hw]
    exact this

/-- C3: for an endpoint with an incremental rule, the sequence of
watermarks persisted by successive runs is monotonically non-decreasing:
the watermark committed after run `n+1` dominates the one committed after
run `n` (failed runs repeat the previous watermark). -/
theorem c3_watermarks_monotone (now : Nat) (key : String) (res : ResourceConfig)
    (inc : IncrementalConfig) (hres : res ∈ (pipedrive_source now key).resources)
    (hinc : res.endpoint.incremental = some inc) :
    ∀ (runs : List (List FetchResult)) (wm0 : String) (n : Nat) (w1 w2 : String),
      (watermarkSeq (pipedrive_source now key).resource_defaults res wm0 runs)[n]? = some w1 →
      (watermarkSeq (pipedrive_source now key).resource_defaults res wm0 runs)[n + 1]?
        = some w2 →
      strLeb w1 w2 = true := by
  intro runs
  induction runs with
  | nil => intro wm0 n w1 w2 h1 h2; simp [watermarkSeq] at h1
  | cons pages rest ih =>
    intro wm0 n w1 w2 h1 h2
    simp only [watermarkSeq] at h1 h2
    cases n with
    | zero =>
      simp only [List.getElem?_cons_zero] at h1
      have hw1 := Option.some.inj h1
      simp only [List.getElem?_cons_succ] at h2
      rw [← hw1]
      exact watermarkSeq_head_ge (pipedrive_source now key).resource_defaults res inc hinc
        rest _ w2 h2
    | succ m =>
      simp only [List.getElem?_cons_succ] at h1 h2
      exact ih _ m w1 w2 h1 h2

/-- Consumed records of an incremental endpoint's run carry a cursor
value dominating the starting watermark. -/
theorem runEndpoint_consumed_cursor (defaults : ResourceDefaults) (res : ResourceConfig)
    (saved : Option String) (pages : List FetchResult) (inc : IncrementalConfig)
    (hinc : res.endpoint.incremental = some inc) (r : Json)
    (hr : r ∈ (runEndpoint defaults res saved pages).consumed) :
    ∃ v, recordCursorVal inc r = some v ∧ strLeb (startWatermark res saved) v = true := by
  rw [runEndpoint_consumed_eq] at hr
  have hk := runLoop_consumed_keep defaults.endpoint_paginator res.endpoint.incremental
    res.endpoint.data_selector (startWatermark res saved) pages _ r hr
  rw [hinc] at hk
  simp only [keepRecord] at hk
  cases hv : recordCursorVal inc r with
  | none => rw [hv] at hk; simp at hk
  | some v =>
    rw [hv] at hk
    exact ⟨v, rfl, hk⟩

/-- C2: for a successful (completed) run of an incremental endpoint, the
persisted watermark is the maximum cursor value among the records
consumed in the run — an element of the consumed cursor values dominating
all of them — and if the run consumed no records it equals the watermark
the run started with. -/
theorem c2_completed_watermark_is_max (now : Nat) (key : String) (res : ResourceConfig)
    (saved : Option String) (pages : List FetchResult) (inc : IncrementalConfig)
    (hres : res ∈ (pipedrive_source now key).resources)
    (hinc : res.endpoint.incremental = some inc)
    (hst : (runEndpoint (pipedrive_source now key).resource_defaults res saved pages).state
      = .Completed) :
    ((runEndpoint (pipedrive_source now key).resource_defaults res saved pages).consumed = [] →
      (runEndpoint (pipedrive_source now key).resource_defaults res saved pages).watermark
        = startWatermark res saved) ∧
    ((runEndpoint (pipedrive_source now key).resource_defaults res saved pages).consumed ≠ [] →
      (runEndpoint (pipedrive_source now key).resource_defaults res saved pages).watermark
          ∈ ((runEndpoint (pipedrive_source now key).resource_defaults res saved
              pages).consumed.filterMap (recordCursorVal inc)) ∧
      ∀ v ∈ ((runEndpoint (pipedrive_source now key).resource_defaults res saved
          pages).consumed.filterMap (recordCursorVal inc)),
        strLeb v ((runEndpoint (pipedrive_source now key).resource_defaults res saved
          pages).watermark) = true) := by
  have hwm := runEndpoint_completed_watermark _ res saved pages inc hinc hst
  rw [newWatermark_eq_foldl] at hwm
  constructor
  · intro hnil
    rw [hwm, hnil]
    rfl
  · intro hne
    have hub : ∀ v ∈ ((runEndpoint (pipedrive_source now key).resource_defaults res saved
        pages).consumed.filterMap (recordCursorVal inc)),
        strLeb v ((runEndpoint (pipedrive_source now key).resource_defaults res saved
          pages).watermark) = true := by
      intro v hv
      rw [hwm]
      exact foldl_strMax_ub _ _ v hv
    refine ⟨?_, hub⟩
    rcases foldl_strMax_mem ((runEndpoint (pipedrive_source now key).resource_defaults res
        saved pages).consumed.filterMap (recordCursorVal inc)) (startWatermark res saved)
      with hm | hm
    · obtain ⟨r, hrmem⟩ := List.exists_mem_of_ne_nil _ hne
      obtain ⟨v, hv, hle⟩ := runEndpoint_consumed_cursor _ res saved pages inc hinc r hrmem
      have hvmem : v ∈ ((runEndpoint (pipedrive_source now key).resource_defaults res saved
          pages).consumed.filterMap (recordCursorVal inc)) :=
        List.mem_filterMap.mpr ⟨r, hrmem, hv⟩
      have hvle := hub v hvmem
      have hveq : v = (runEndpoint (pipedrive_source now key).resource_defaults res saved
          pages).watermark := by
        apply strLeb_antisymm v _ hvle
        rw [hwm, hm]
        exact hle
      rw [← hveq]
      exact hvmem
    · rw [hwm]
      exact hm

/-- Request trace of an endpoint run is the trace of its page loop. -/
theorem runEndpoint_requests_eq (defaults : ResourceDefaults) (res : ResourceConfig)
    (saved : Option String) (pages : List FetchResult) :
    (runEndpoint defaults res saved pages).requests
      = (runLoop defaults.endpoint_paginator res.endpoint.incremental res.endpoint.data_selector
          (startWatermark res saved) (firstRequest defaults res (startWatermark res saved))
          pages).requests := rfl

/-- C5: endpoint extractions within one run are isolated — the outcome of
an endpoint depends only on its own page environment, so one endpoint's
failure (for example a fetch returning HTTP 401) never aborts sibling
endpoints — and a failed endpoint keeps its watermark unchanged. -/
theorem c5_endpoint_failures_isolated (now : Nat) (key : String)
    (saved : String → Option String) (env env2 : String → List FetchResult) :
    (∀ (j : Nat) (resj : ResourceConfig),
      (pipedrive_source now key).resources[j]? = some resj →
      env resj.name = env2 resj.name →
      (runSource (pipedrive_source now key) saved env)[j]?
        = (runSource (pipedrive_source now key) saved env2)[j]?) ∧
    (∀ (i : Nat) (resi : ResourceConfig),
      (pipedrive_source now key).resources[i]? = some resi →
      (runEndpoint (pipedrive_source now key).resource_defaults resi (saved resi.name)
        (env resi.name)).state = .Failed →
      (runEndpoint (pipedrive_source now key).resource_defaults resi (saved resi.name)
        (env resi.name)).watermark = startWatermark resi (saved resi.name)) := by
  constructor
  · intro j resj hj henv
    simp only [runSource, List.getElem?_map, hj, Option.map_some']
    rw [henv]
  · intro i resi hi hfail
    exact runEndpoint_failed_watermark _ resi _ _ hfail

/-- C6: every page request of a run of a recents endpoint configured with
the `since_timestamp` start-parameter override — the first request and
every continuation-page request — carries the starting watermark under
`since_timestamp`, and none of them carries the generic default start
parameter `since`. -/
theorem c6_since_timestamp_override_every_request (now : Nat) (key : String)
    (res : ResourceConfig) (inc : IncrementalConfig) (saved : Option String)
    (pages : List FetchResult) (hres : res ∈ (pipedrive_source now key).resources)
    (hinc : res.endpoint.incremental = some inc)
    (hover : inc.start_param = some "since_timestamp") :
    ∀ (i : Nat) (ri : Request),
      (runEndpoint (pipedrive_source now key).resource_defaults res saved
        pages).requests[i]? = some ri →
      ri.param "since_timestamp" = some (Json.str (saved.getD inc.initial_value)) ∧
      ri.param "since" = none := by
  intro i ri hri
  rw [runEndpoint_requests_eq] at hri
  have hstart : startWatermark res saved = saved.getD inc.initial_value := by
    simp [startWatermark, hinc]
  have hsince : res.endpoint.params.lookup "since" = none := by
    fin_cases hres <;> rfl
  have hbase : (((pipedrive_source now key).resource_defaults.endpoint_params
      ++ res.endpoint.params).lookup "since") = none := by
    have h1 : (pipedrive_source now key).resource_defaults.endpoint_params
        = [("limit", Json.num 100)] := rfl
    rw [h1]
    simpa [List.lookup] using hsince
  have hspn : startParamName inc = "since_timestamp" := by
    simp [startParamName, hover]
  refine runLoop_requests_pred (pipedrive_source now key).resource_defaults.endpoint_paginator
    res.endpoint.incremental res.endpoint.data_selector (startWatermark res saved)
    (fun r => r.param "since_timestamp" = some (Json.str (saved.getD inc.initial_value)) ∧
      r.param "since" = none) ?_ pages _ ?_ i ri hri
  · intro r t hP
    have hcp : (pipedrive_source now key).resource_defaults.endpoint_paginator.cursor_param
        = "start" := rfl
    rw [hcp]
    constructor
    · rw [withParam_param_ne r "start" "since_timestamp" t (by decide)]
      exact hP.1
    · rw [withParam_param_ne r "start" "since" t (by decide)]
      exact hP.2
  · have hfr : firstRequest (pipedrive_source now key).resource_defaults res
        (startWatermark res saved)
        = ⟨res.endpoint.path,
            setParam ((pipedrive_source now key).resource_defaults.endpoint_params
              ++ res.endpoint.params) (startParamName inc)
              (Json.str (startWatermark res saved))⟩ := by
      simp only [firstRequest, hinc]
    rw [hfr]
    constructor
    · show (setParam ((pipedrive_source now key).resource_defaults.endpoint_params
          ++ res.endpoint.params) (startParamName inc)
          (Json.str (startWatermark res saved))).lookup "since_timestamp"
        = some (Json.str (saved.getD inc.initial_value))
      rw [hspn, hstart]
      exact setParam_lookup_same _ _ _
    · show (setParam ((pipedrive_source now key).resource_defaults.endpoint_params
          ++ res.endpoint.params) (startParamName inc)
          (Json.str (startWatermark res saved))).lookup "since" = none
      rw [hspn]
      rw [setParam_lookup_ne _ _ _ _ (by decide)]
      exact hbase

/-- C7: for every incremental endpoint, the first request of a run
attaches the last-saved watermark (or the configured initial value when
none is saved) under the configured start parameter — the generic default
name `since` when no override is configured, which is the case for
`deals`, `organizations`, `persons` and `products`, or the configured
override otherwise. -/
theorem c7_first_request_attaches_watermark (now : Nat) (key : String)
    (res : ResourceConfig) (inc : IncrementalConfig) (saved : Option String)
    (pages : List FetchResult) (hres : res ∈ (pipedrive_source now key).resources)
    (hinc : res.endpoint.incremental = some inc) :
    ((runEndpoint (pipedrive_source now key).resource_defaults res saved
        pages).requests[0]?
      = some (firstRequest (pipedrive_source now key).resource_defaults res
          (startWatermark res saved))) ∧
    ((firstRequest (pipedrive_source now key).resource_defaults res
        (startWatermark res saved)).param (startParamName inc)
      = some (Json.str (saved.getD inc.initial_value))) ∧
    ((res.name = "deals" ∨ res.name = "organizations" ∨ res.name = "persons"
        ∨ res.name = "products") →
      inc.start_param = none ∧ startParamName inc = "since") ∧
    (∀ p, inc.start_param = some p → startParamName inc = p) := by
  have hstart : startWatermark res saved = saved.getD inc.initial_value := by
    simp [startWatermark, hinc]
  refine ⟨?_, ?_, ?_, ?_⟩
  · rw [runEndpoint_requests_eq]
    exact runLoop_requests_head _ _ _ _ pages _
  · have hfr : firstRequest (pipedrive_source now key).resource_defaults res
        (startWatermark res saved)
        = ⟨res.endpoint.path,
            setParam ((pipedrive_source now key).resource_defaults.endpoint_params
              ++ res.endpoint.params) (startParamName inc)
              (Json.str (startWatermark res saved))⟩ := by
      simp only [firstRequest, hinc]
    rw [hfr]
    show (setParam ((pipedrive_source now key).resource_defaults.endpoint_params
        ++ res.endpoint.params) (startParamName inc)
        (Json.str (startWatermark res saved))).lookup (startParamName inc)
      = some (Json.str (saved.getD inc.initial_value))
    rw [hstart]
    exact setParam_lookup_same _ _ _
  · intro hname
    have hsp : inc.start_param = none := by
      fin_cases hres <;> simp_all [plainResource, updateTimeResource, recentsResource] <;>
        exact (congrArg IncrementalConfig.start_param hinc).symm
    exact ⟨hsp, by simp [startParamName, hsp]⟩
  · intro p hp
    simp [startParamName, hp]

/-! ### Merge-writer lemmas -/

/-- Folding the last-with-key scan from an arbitrary accumulator. -/
theorem lastWithKey_foldl_acc (pk : String) (q : Int) :
    ∀ (rs : List Json) (acc : Option Json),
      rs.foldl (fun a r => if recordKey pk r = some q then some r else a) acc
        = match lastWithKey pk rs q with
          | some x => some x
          | none => acc := by
  intro rs
  induction rs with
  | nil => intro acc; rfl
  | cons r rs ih =>
    intro acc
    simp only [List.foldl_cons]
    rw [ih]
    have h2 : lastWithKey pk (r :: rs) q
        = match lastWithKey pk rs q with
          | some x => some x
          | none => if recordKey pk r = some q then some r else none := by
      simp only [lastWithKey, List.foldl_cons]
      exact ih _
    rw [h2]
    cases hL : lastWithKey pk rs q with
    | some x => simp [hL]
    | none => by_cases hk : recordKey pk r = some q <;> simp [hL, hk]

/-- Pointwise description of a merge load: the last delivered record with
the key, else the previous row. -/
theorem mergeLoad_lookup (pk : String) :
    ∀ (rs : List Json) (t : Int → Option Json) (q : Int),
      mergeLoad pk t rs q
        = match lastWithKey pk rs q with
          | some r => some r
          | none => t q := by
  intro rs
  induction rs with
  | nil => intro t q; rfl
  | cons r rs ih =>
    intro t q
    have h1 : mergeLoad pk t (r :: rs) q = mergeLoad pk (upsertRecord pk t r) rs q := rfl
    rw [h1, ih]
    have h2 : lastWithKey pk (r :: rs) q
        = match lastWithKey pk rs q with
          | some x => some x
          | none => if recordKey pk r = some q then some r else none := by
      simp only [lastWithKey, List.foldl_cons]
      exact lastWithKey_foldl_acc pk q rs _
    rw [h2]
    cases hL : lastWithKey pk rs q with
    | some x => simp
    | none =>
      by_cases hk : recordKey pk r = some q
      · simp only [hk]
        simp only [upsertRecord, hk]
        simp
      · simp only [if_neg hk]
        cases hk2 : recordKey pk r with
        | none => simp [upsertRecord, hk2]
        | some k =>
          have hkq : k ≠ q := by
            intro h
            exact hk (by rw [hk2, h])
          have hqk : ¬ q = k := fun h => hkq h.symm
          simp [upsertRecord, hk2, hqk]

/-- C8: with the configured primary key `id` and merge write disposition,
re-delivering the same batch of records is idempotent — the destination
table is left exactly as after the first delivery — and a merge load
never removes a key, so the per-key row set of unchanged keys never
shrinks. -/
theorem c8_merge_redelivery_idempotent (now : Nat) (key : String) :
    (pipedrive_source now key).resource_defaults.primary_key = "id" ∧
    (pipedrive_source now key).resource_defaults.write_disposition = "merge" ∧
    ∀ (table : Int → Option Json) (records : List Json),
      mergeLoad "id" (mergeLoad "id" table records) records = mergeLoad "id" table records ∧
      ∀ (q : Int) (r0 : Json), table q = some r0 →
        ∃ r1, mergeLoad "id" table records q = some r1 := by
  refine ⟨rfl, rfl, ?_⟩
  intro table records
  constructor
  · funext q
    rw [mergeLoad_lookup, mergeLoad_lookup]
    cases hL : lastWithKey "id" records q with
    | some x => rfl
    | none => rfl
  · intro q r0 h
    rw [mergeLoad_lookup]
    cases hL : lastWithKey "id" records q with
    | some x => exact ⟨x, rfl⟩
    | none => exact ⟨r0, h⟩

/-- C9: the credential is a parameter injected at startup; it appears in
the configuration only as the auth field's API key, so two configurations
built from different credentials agree everywhere once the auth key is
erased. -/
theorem c9_credential_only_in_auth (now : Nat) (k1 k2 : String) :
    scrubAuth (pipedrive_source now k1) = scrubAuth (pipedrive_source now k2) ∧
    (pipedrive_source now k1).client.auth.api_key = k1 ∧
    (pipedrive_source now k1).client.auth.name = "api_token" ∧
    (pipedrive_source now k1).client.auth.location = "query" :=
  ⟨rfl, rfl, rfl, rfl⟩

set_option maxRecDepth 8000 in
/-- C10: the configuration is not deterministic across invocations — all
twelve incremental resources share the single initial watermark
`DEFAULT_START_DATE`, computed from the invocation time, so invocations
at different times (within the four-digit-year range) differ exactly in
the initial watermark strings and agree on everything else. -/
theorem c10_initial_value_time_dependent (key : String) (t1 t2 : Nat)
    (h1 : 2592000 ≤ t1) (h2 : t1 < 253404892800)
    (h3 : 2592000 ≤ t2) (h4 : t2 < 253404892800) (hne : t1 ≠ t2) :
    DEFAULT_START_DATE t1 ≠ DEFAULT_START_DATE t2 ∧
    scrubInitialValues (pipedrive_source t1 key)
      = scrubInitialValues (pipedrive_source t2 key) ∧
    (∀ res ∈ (pipedrive_source t1 key).resources, ∀ inc : IncrementalConfig,
      res.endpoint.incremental = some inc → inc.initial_value = DEFAULT_START_DATE t1) ∧
    ((pipedrive_source t1 key).resources.filter
      (fun r => r.endpoint.incremental.isSome)).length = 12 := by
  refine ⟨DEFAULT_START_DATE_injOn t1 t2 h1 h2 h3 h4 hne, ?_, ?_, ?_⟩
  · simp only [scrubInitialValues, pipedrive_source, scrubResourceStart, plainResource,
      updateTimeResource, recentsResource, List.map_cons, List.map_nil, Option.map_some',
      Option.map_none']
  · intro res hres inc hinc
    fin_cases hres <;> simp_all [plainResource, updateTimeResource, recentsResource] <;>
      exact (congrArg IncrementalConfig.initial_value hinc).symm
  · rfl

/-! ### Concrete witnesses -/

/-- Witness for C1 at a one-page run whose envelope carries no token. -/
theorem c1_witness :
    ((runEndpoint (pipedrive_source 2592000 "k").resource_defaults
        (plainResource "currencies" "currencies") none
        [FetchResult.success (Json.obj [])]).requests[0]?
      = some (Request.mk "currencies" [("limit", Json.num 100)])) ∧
    (([FetchResult.success (Json.obj [])] : List FetchResult)[0]?
      = some (FetchResult.success (Json.obj []))) ∧
    ((((Json.obj []).resolvePath (splitPath "additional_data.pagination.next_start") = none ∨
      (Json.obj []).resolvePath (splitPath "additional_data.pagination.next_start")
        = some Json.null) →
      (runEndpoint (pipedrive_source 2592000 "k").resource_defaults
          (plainResource "currencies" "currencies") none
          [FetchResult.success (Json.obj [])]).requests.length = 0 + 1 ∧
      ∀ j : Nat, 0 + 1 ≤ j →
        (runEndpoint (pipedrive_source 2592000 "k").resource_defaults
          (plainResource "currencies" "currencies") none
          [FetchResult.success (Json.obj [])]).requests[j]? = none) ∧
    (∀ tok, (Json.obj []).resolvePath (splitPath "additional_data.pagination.next_start")
        = some tok →
      tok ≠ Json.null →
      (runEndpoint (pipedrive_source 2592000 "k").resource_defaults
          (plainResource "currencies" "currencies") none
          [FetchResult.success (Json.obj [])]).requests[0 + 1]?
        = some ((Request.mk "currencies" [("limit", Json.num 100)]).withParam "start" tok) ∧
      ((Request.mk "currencies" [("limit", Json.num 100)]).withParam "start" tok).param "start"
        = some tok)) :=
  ⟨rfl, rfl, c1_cursor_pagination_stops_exactly 2592000 "k"
    (plainResource "currencies" "currencies") none [FetchResult.success (Json.obj [])] 0
    (Request.mk "currencies" [("limit", Json.num 100)]) (Json.obj []) rfl rfl⟩

/-- Witness for C2 at a completed one-page run consuming one record. -/
theorem c2_witness :
    (updateTimeResource "deals" "deals" (DEFAULT_START_DATE 2592000)
      ∈ (pipedrive_source 2592000 "k").resources) ∧
    ((updateTimeResource "deals" "deals" (DEFAULT_START_DATE 2592000)).endpoint.incremental
      = some (IncrementalConfig.mk none "update_time" (DEFAULT_START_DATE 2592000))) ∧
    ((runEndpoint (pipedrive_source 2592000 "k").resource_defaults
        (updateTimeResource "deals" "deals" (DEFAULT_START_DATE 2592000)) none
        [FetchResult.success (Json.obj [("data", Json.arr [Json.obj [("id", Json.num 1),
          ("update_time", Json.str "2024-01-01 00:00:00")]])])]).state
      = EndpointState.Completed) ∧
    (((runEndpoint (pipedrive_source 2592000 "k").resource_defaults
        (updateTimeResource "deals" "deals" (DEFAULT_START_DATE 2592000)) none
        [FetchResult.success (Json.obj [("data", Json.arr [Json.obj [("id", Json.num 1),
          ("update_time", Json.str "2024-01-01 00:00:00")]])])]).consumed = [] →
      (runEndpoint (pipedrive_source 2592000 "k").resource_defaults
        (updateTimeResource "deals" "deals" (DEFAULT_START_DATE 2592000)) none
        [FetchResult.success (Json.obj [("data", Json.arr [Json.obj [("id", Json.num 1),
          ("update_time", Json.str "2024-01-01 00:00:00")]])])]).watermark
        = startWatermark (updateTimeResource "deals" "deals" (DEFAULT_START_DATE 2592000))
            none) ∧
    ((runEndpoint (pipedrive_source 2592000 "k").resource_defaults
        (updateTimeResource "deals" "deals" (DEFAULT_START_DATE 2592000)) none
        [FetchResult.success (Json.obj [("data", Json.arr [Json.obj [("id", Json.num 1),
          ("update_time", Json.str "2024-01-01 00:00:00")]])])]).consumed ≠ [] →
      (runEndpoint (pipedrive_source 2592000 "k").resource_defaults
        (updateTimeResource "deals" "deals" (DEFAULT_START_DATE 2592000)) none
        [FetchResult.success (Json.obj [("data", Json.arr [Json.obj [("id", Json.num 1),
          ("update_time", Json.str "2024-01-01 00:00:00")]])])]).watermark
        ∈ ((runEndpoint (pipedrive_source 2592000 "k").resource_defaults
            (updateTimeResource "deals" "deals" (DEFAULT_START_DATE 2592000)) none
            [FetchResult.success (Json.obj [("data", Json.arr [Json.obj [("id", Json.num 1),
              ("update_time", Json.str "2024-01-01 00:00:00")]])])]).consumed.filterMap
          (recordCursorVal (IncrementalConfig.mk none "update_time"
            (DEFAULT_START_DATE 2592000)))) ∧
      ∀ v ∈ ((runEndpoint (pipedrive_source 2592000 "k").resource_defaults
          (updateTimeResource "deals" "deals" (DEFAULT_START_DATE 2592000)) none
          [FetchResult.success (Json.obj [("data", Json.arr [Json.obj [("id", Json.num 1),
            ("update_time", Json.str "2024-01-01 00:00:00")]])])]).consumed.filterMap
        (recordCursorVal (IncrementalConfig.mk none "update_time"
          (DEFAULT_START_DATE 2592000)))),
        strLeb v ((runEndpoint (pipedrive_source 2592000 "k").resource_defaults
          (updateTimeResource "deals" "deals" (DEFAULT_START_DATE 2592000)) none
          [FetchResult.success (Json.obj [("data", Json.arr [Json.obj [("id", Json.num 1),
            ("update_time", Json.str "2024-01-01 00:00:00")]])])]).watermark) = true)) :=
  ⟨List.mem_cons_of_mem _ (List.mem_cons_of_mem _ (List.mem_cons_of_mem _
      (List.mem_cons_of_mem _ (List.mem_cons_of_mem _ (List.mem_cons_self _ _))))), rfl, rfl,
    c2_completed_watermark_is_max 2592000 "k"
      (updateTimeResource "deals" "deals" (DEFAULT_START_DATE 2592000)) none
      [FetchResult.success (Json.obj [("data", Json.arr [Json.obj [("id", Json.num 1),
        ("update_time", Json.str "2024-01-01 00:00:00")]])])]
      (IncrementalConfig.mk none "update_time" (DEFAULT_START_DATE 2592000))
      (List.mem_cons_of_mem _ (List.mem_cons_of_mem _ (List.mem_cons_of_mem _
        (List.mem_cons_of_mem _ (List.mem_cons_of_mem _ (List.mem_cons_self _ _))))))
      rfl rfl⟩

/-- Witness for C3 over two consecutive runs. -/
theorem c3_witness :
    (updateTimeResource "deals" "deals" (DEFAULT_START_DATE 2592000)
      ∈ (pipedrive_source 2592000 "k").resources) ∧
    ((updateTimeResource "deals" "deals" (DEFAULT_START_DATE 2592000)).endpoint.incremental
      = some (IncrementalConfig.mk none "update_time" (DEFAULT_START_DATE 2592000))) ∧
    ((watermarkSeq (pipedrive_source 2592000 "k").resource_defaults
      (updateTimeResource "deals" "deals" (DEFAULT_START_DATE 2592000)) "a" [[], []])[0]?
      = some "a") ∧
    ((watermarkSeq (pipedrive_source 2592000 "k").resource_defaults
      (updateTimeResource "deals" "deals" (DEFAULT_START_DATE 2592000)) "a" [[], []])[0 + 1]?
      = some "a") ∧
    strLeb "a" "a" = true :=
  ⟨List.mem_cons_of_mem _ (List.mem_cons_of_mem _ (List.mem_cons_of_mem _
      (List.mem_cons_of_mem _ (List.mem_cons_of_mem _ (List.mem_cons_self _ _))))), rfl, rfl, rfl,
    c3_watermarks_monotone 2592000 "k"
      (updateTimeResource "deals" "deals" (DEFAULT_START_DATE 2592000))
      (IncrementalConfig.mk none "update_time" (DEFAULT_START_DATE 2592000))
      (List.mem_cons_of_mem _ (List.mem_cons_of_mem _ (List.mem_cons_of_mem _
        (List.mem_cons_of_mem _ (List.mem_cons_of_mem _ (List.mem_cons_self _ _))))))
      rfl [[], []] "a" 0 "a" "a" rfl rfl⟩

/-- Witness for C4 at a run with no response. -/
theorem c4_witness :
    (updateTimeResource "deals" "deals" (DEFAULT_START_DATE 2592000)
      ∈ (pipedrive_source 2592000 "k").resources) ∧
    (((runEndpoint (pipedrive_source 2592000 "k").resource_defaults
        (updateTimeResource "deals" "deals" (DEFAULT_START_DATE 2592000)) none []).state
        = EndpointState.Failed →
      (runEndpoint (pipedrive_source 2592000 "k").resource_defaults
        (updateTimeResource "deals" "deals" (DEFAULT_START_DATE 2592000)) none []).watermark
        = startWatermark (updateTimeResource "deals" "deals" (DEFAULT_START_DATE 2592000))
            none) ∧
    ((runEndpoint (pipedrive_source 2592000 "k").resource_defaults
        (updateTimeResource "deals" "deals" (DEFAULT_START_DATE 2592000)) none []).watermark
        ≠ startWatermark (updateTimeResource "deals" "deals" (DEFAULT_START_DATE 2592000))
            none →
      (runEndpoint (pipedrive_source 2592000 "k").resource_defaults
        (updateTimeResource "deals" "deals" (DEFAULT_START_DATE 2592000)) none []).state
        = EndpointState.Completed) ∧
    (runEndpoint (pipedrive_source 2592000 "k").resource_defaults
      (updateTimeResource "deals" "deals" (DEFAULT_START_DATE 2592000)) none
      (FetchResult.cancelled :: [])).state = EndpointState.Failed) :=
  ⟨List.mem_cons_of_mem _ (List.mem_cons_of_mem _ (List.mem_cons_of_mem _
      (List.mem_cons_of_mem _ (List.mem_cons_of_mem _ (List.mem_cons_self _ _))))),
    c4_failed_run_keeps_watermark 2592000 "k"
      (updateTimeResource "deals" "deals" (DEFAULT_START_DATE 2592000)) none []
      (List.mem_cons_of_mem _ (List.mem_cons_of_mem _ (List.mem_cons_of_mem _
        (List.mem_cons_of_mem _ (List.mem_cons_of_mem _ (List.mem_cons_self _ _))))))⟩

/-- Witness for C5 at environments where one endpoint's fetch returns
HTTP 401. -/
theorem c5_witness :
    (∀ (j : Nat) (resj : ResourceConfig),
      (pipedrive_source 2592000 "k").resources[j]? = some resj →
      (fun _ : String => [FetchResult.httpError 401]) resj.name
        = (fun _ : String => [FetchResult.httpError 401]) resj.name →
      (runSource (pipedrive_source 2592000 "k") (fun _ => none)
        (fun _ => [FetchResult.httpError 401]))[j]?
        = (runSource (pipedrive_source 2592000 "k") (fun _ => none)
            (fun _ => [FetchResult.httpError 401]))[j]?) ∧
    (∀ (i : Nat) (resi : ResourceConfig),
      (pipedrive_source 2592000 "k").resources[i]? = some resi →
      (runEndpoint (pipedrive_source 2592000 "k").resource_defaults resi
        ((fun _ : String => (none : Option String)) resi.name)
        ((fun _ : String => [FetchResult.httpError 401]) resi.name)).state = .Failed →
      (runEndpoint (pipedrive_source 2592000 "k").resource_defaults resi
        ((fun _ : String => (none : Option String)) resi.name)
        ((fun _ : String => [FetchResult.httpError 401]) resi.name)).watermark
        = startWatermark resi ((fun _ : String => (none : Option String)) resi.name)) :=
  c5_endpoint_failures_isolated 2592000 "k" (fun _ => none)
    (fun _ => [FetchResult.httpError 401]) (fun _ => [FetchResult.httpError 401])

/-- Witness for C6 at a one-page run of `recent_notes` with a saved
watermark. -/
theorem c6_witness :
    (recentsResource "recent_notes" "note" (DEFAULT_START_DATE 2592000)
      ∈ (pipedrive_source 2592000 "k").resources) ∧
    ((recentsResource "recent_notes" "note" (DEFAULT_START_DATE 2592000)).endpoint.incremental
      = some (IncrementalConfig.mk (some "since_timestamp") "update_time"
          (DEFAULT_START_DATE 2592000))) ∧
    ((IncrementalConfig.mk (some "since_timestamp") "update_time"
      (DEFAULT_START_DATE 2592000)).start_param = some "since_timestamp") ∧
    ((runEndpoint (pipedrive_source 2592000 "k").resource_defaults
        (recentsResource "recent_notes" "note" (DEFAULT_START_DATE 2592000))
        (some "2024-02-02 00:00:00") [FetchResult.success Json.null]).requests[0]?
      = some (Request.mk "recents" [("limit", Json.num 100), ("items", Json.str "note"),
          ("since_timestamp", Json.str "2024-02-02 00:00:00")])) ∧
    ((Request.mk "recents" [("limit", Json.num 100), ("items", Json.str "note"),
        ("since_timestamp", Json.str "2024-02-02 00:00:00")]).param "since_timestamp"
      = some (Json.str "2024-02-02 00:00:00") ∧
     (Request.mk "recents" [("limit", Json.num 100), ("items", Json.str "note"),
        ("since_timestamp", Json.str "2024-02-02 00:00:00")]).param "since" = none) :=
  ⟨List.mem_cons_of_mem _ (List.mem_cons_of_mem _ (List.mem_cons_of_mem _
      (List.mem_cons_of_mem _ (List.mem_cons_of_mem _ (List.mem_cons_of_mem _
        (List.mem_cons_of_mem _ (List.mem_cons_of_mem _ (List.mem_cons_of_mem _
          (List.mem_cons_self _ _))))))))), rfl, rfl, rfl,
    c6_since_timestamp_override_every_request 2592000 "k"
      (recentsResource "recent_notes" "note" (DEFAULT_START_DATE 2592000))
      (IncrementalConfig.mk (some "since_timestamp") "update_time"
        (DEFAULT_START_DATE 2592000))
      (some "2024-02-02 00:00:00") [FetchResult.success Json.null]
      (List.mem_cons_of_mem _ (List.mem_cons_of_mem _ (List.mem_cons_of_mem _
        (List.mem_cons_of_mem _ (List.mem_cons_of_mem _ (List.mem_cons_of_mem _
          (List.mem_cons_of_mem _ (List.mem_cons_of_mem _ (List.mem_cons_of_mem _
            (List.mem_cons_self _ _))))))))))
      rfl rfl 0
      (Request.mk "recents" [("limit", Json.num 100), ("items", Json.str "note"),
        ("since_timestamp", Json.str "2024-02-02 00:00:00")]) rfl⟩

/-- Witness for C7 at a fresh run of `deals` with no saved watermark. -/
theorem c7_witness :
    (updateTimeResource "deals" "deals" (DEFAULT_START_DATE 2592000)
      ∈ (pipedrive_source 2592000 "k").resources) ∧
    ((updateTimeResource "deals" "deals" (DEFAULT_START_DATE 2592000)).endpoint.incremental
      = some (IncrementalConfig.mk none "update_time" (DEFAULT_START_DATE 2592000))) ∧
    (((runEndpoint (pipedrive_source 2592000 "k").resource_defaults
        (updateTimeResource "deals" "deals" (DEFAULT_START_DATE 2592000)) none []).requests[0]?
      = some (firstRequest (pipedrive_source 2592000 "k").resource_defaults
          (updateTimeResource "deals" "deals" (DEFAULT_START_DATE 2592000))
          (startWatermark (updateTimeResource "deals" "deals" (DEFAULT_START_DATE 2592000))
            none))) ∧
    ((firstRequest (pipedrive_source 2592000 "k").resource_defaults
        (updateTimeResource "deals" "deals" (DEFAULT_START_DATE 2592000))
        (startWatermark (updateTimeResource "deals" "deals" (DEFAULT_START_DATE 2592000))
          none)).param
        (startParamName (IncrementalConfig.mk none "update_time" (DEFAULT_START_DATE 2592000)))
      = some (Json.str ((none : Option String).getD
          (IncrementalConfig.mk none "update_time"
            (DEFAULT_START_DATE 2592000)).initial_value))) ∧
    (((updateTimeResource "deals" "deals" (DEFAULT_START_DATE 2592000)).name = "deals" ∨
      (updateTimeResource "deals" "deals" (DEFAULT_START_DATE 2592000)).name = "organizations" ∨
      (updateTimeResource "deals" "deals" (DEFAULT_START_DATE 2592000)).name = "persons" ∨
      (updateTimeResource "deals" "deals" (DEFAULT_START_DATE 2592000)).name = "products") →
      (IncrementalConfig.mk none "update_time" (DEFAULT_START_DATE 2592000)).start_param
        = none ∧
      startParamName (IncrementalConfig.mk none "update_time" (DEFAULT_START_DATE 2592000))
        = "since") ∧
    (∀ p, (IncrementalConfig.mk none "update_time"
        (DEFAULT_START_DATE 2592000)).start_param = some p →
      startParamName (IncrementalConfig.mk none "update_time" (DEFAULT_START_DATE 2592000))
        = p)) :=
  ⟨List.mem_cons_of_mem _ (List.mem_cons_of_mem _ (List.mem_cons_of_mem _
      (List.mem_cons_of_mem _ (List.mem_cons_of_mem _ (List.mem_cons_self _ _))))), rfl,
    c7_first_request_attaches_watermark 2592000 "k"
      (updateTimeResource "deals" "deals" (DEFAULT_START_DATE 2592000))
      (IncrementalConfig.mk none "update_time" (DEFAULT_START_DATE 2592000)) none []
      (List.mem_cons_of_mem _ (List.mem_cons_of_mem _ (List.mem_cons_of_mem _
        (List.mem_cons_of_mem _ (List.mem_cons_of_mem _ (List.mem_cons_self _ _))))))
      rfl⟩

/-- Witness for C8 at the concrete source configuration. -/
theorem c8_witness :
    (pipedrive_source 2592000 "k").resource_defaults.primary_key = "id" ∧
    (pipedrive_source 2592000 "k").resource_defaults.write_disposition = "merge" ∧
    ∀ (table : Int → Option Json) (records : List Json),
      mergeLoad "id" (mergeLoad "id" table records) records = mergeLoad "id" table records ∧
      ∀ (q : Int) (r0 : Json), table q = some r0 →
        ∃ r1, mergeLoad "id" table records q = some r1 :=
  c8_merge_redelivery_idempotent 2592000 "k"

/-- Witness for C10 at two invocation times one second apart. -/
theorem c10_witness :
    (2592000 ≤ 2592000) ∧ (2592000 < 253404892800) ∧ (2592000 ≤ 2592001) ∧
    (2592001 < 253404892800) ∧ (2592000 ≠ 2592001) ∧
    (DEFAULT_START_DATE 2592000 ≠ DEFAULT_START_DATE 2592001 ∧
    scrubInitialValues (pipedrive_source 2592000 "k")
      = scrubInitialValues (pipedrive_source 2592001 "k") ∧
    (∀ res ∈ (pipedrive_source 2592000 "k").resources, ∀ inc : IncrementalConfig,
      res.endpoint.incremental = some inc →
      inc.initial_value = DEFAULT_START_DATE 2592000) ∧
    ((pipedrive_source 2592000 "k").resources.filter
      (fun r => r.endpoint.incremental.isSome)).length = 12) :=
  ⟨by decide, by decide, by decide, by decide, by decide,
    c10_initial_value_time_dependent "k" 2592000 2592001 (by decide) (by decide) (by decide)
      (by decide) (by decide)⟩

end PipedriveVerif
